import Mathlib

/-!
Verification development for the MovieLens data-preparation utility
(src/data_fetching.py and src/mapping_tables.py).

The development shallowly embeds the two modules:

* the pseudo-random machinery actually used by the code
  (numpy MT19937 RandomState seeded with an integer, its Fisher-Yates
  shuffle with rejection-sampled bounded draws, and scikit-learn
  train_test_split built on top of a full permutation),
* pandas-level operations the code relies on (first-appearance
  deduplication of a column, read_csv on a two-character separator,
  to_csv file writing),
* an explicit filesystem state for the directory-creation / file-writing
  and download / extraction side effects.

Machine integers are modelled as Nat with explicit reduction modulo 2^32
where the C implementation works on 32-bit words.
-/

namespace MovieLens

/-- 2^32, the modulus of the 32-bit words used by MT19937. -/
def U32 : Nat := 4294967296

/-- Read a word of the generator state (C array indexing; index is always
in bounds in the code paths modelled here). -/
def lget (l : List Nat) (i : Nat) : Nat := l.getD i 0

/-- Tail of numpy init_genrand: mt[i] = (1812433253 * (mt[i-1] xor (mt[i-1] >> 30)) + i)
truncated to 32 bits, for i = 1 .. 623. -/
def mtInitAux : Nat → Nat → Nat → List Nat
  | _, _, 0 => []
  | prev, i, fuel + 1 =>
    let next := (1812433253 * (prev ^^^ (prev >>> 30)) + i) % U32
    next :: mtInitAux next (i + 1) fuel

/-- numpy mt19937_seed / init_genrand: the 624-word state obtained from an
integer seed. -/
def mtInit (seed : Nat) : List Nat :=
  (seed % U32) :: mtInitAux (seed % U32) 1 623

/-- One in-place step of the MT19937 twist loop at index i.  Indices are
taken modulo 624, which matches the C code: entries above i are still the
old generation, entries below i are already renewed. -/
def twistStep (mt : List Nat) (i : Nat) : List Nat :=
  let y := (lget mt i &&& 2147483648) ||| (lget mt ((i + 1) % 624) &&& 2147483647)
  let mag := if y % 2 = 1 then 2567483615 else 0
  mt.set i ((lget mt ((i + 397) % 624)) ^^^ (y >>> 1) ^^^ mag)

/-- The MT19937 state transition (mt19937_gen): renew all 624 words. -/
def mtTwist (mt : List Nat) : List Nat :=
  (List.range 624).foldl twistStep mt

/-- MT19937 output tempering. -/
def temper (y0 : Nat) : Nat :=
  let y1 := y0 ^^^ (y0 >>> 11)
  let y2 := y1 ^^^ ((y1 <<< 7) &&& 2636928640)
  let y3 := y2 ^^^ ((y2 <<< 15) &&& 4022730752)
  y3 ^^^ (y3 >>> 18)

/-- State of a numpy legacy RandomState: the 624 MT words plus the read
position. -/
structure MTState where
  mt : List Nat
  pos : Nat

/-- numpy RandomState(seed) for an integer seed below 2^32: init_genrand
with the position forced past the end so the first draw twists. -/
def RandomState (seed : Nat) : MTState :=
  ⟨mtInit seed, 624⟩

/-- Draw one 32-bit word (mt19937_next): twist when the position is
exhausted, then temper the word at the position. -/
def mtNext (s : MTState) : Nat × MTState :=
  if s.pos ≥ 624 then
    let m := mtTwist s.mt
    (temper (lget m 0), ⟨m, 1⟩)
  else
    (temper (lget s.mt s.pos), ⟨s.mt, s.pos + 1⟩)

/-- The bit-smearing mask of numpy random_interval: smallest mask of the
form 2^k - 1 covering mx. -/
def smear (m : Nat) : Nat :=
  let m1 := m ||| (m >>> 1)
  let m2 := m1 ||| (m1 >>> 2)
  let m3 := m2 ||| (m2 >>> 4)
  let m4 := m3 ||| (m3 >>> 8)
  let m5 := m4 ||| (m4 >>> 16)
  m5 ||| (m5 >>> 32)

/-- Rejection loop of numpy random_interval: draw a word, mask it, accept
if it does not exceed mx.  The C loop is unbounded; the model carries fuel.
Each draw accepts with probability above 1/2, and on every concrete input
appearing in this development the fuel is never exhausted; the generic
theorems below do not depend on which branch returns. -/
def randomIntervalAux (mask mx : Nat) : Nat → MTState → Nat × MTState
  | 0, s => (0, s)
  | fuel + 1, s =>
    let v := mtNext s
    let w := v.1 &&& mask
    if w ≤ mx then (w, v.2) else randomIntervalAux mask mx fuel v.2

/-- numpy random_interval (also legacy rk_interval): uniform draw in
[0, mx] by masked rejection sampling; 0 is returned outright when mx = 0. -/
def randomInterval (s : MTState) (mx : Nat) : Nat × MTState :=
  if mx = 0 then (0, s) else randomIntervalAux (smear mx) mx 4096 s

/-- Exchange the entries of a list at positions i and j (numpy shuffle
swap); out-of-range positions leave the list unchanged (never hit by the
shuffle loop, which keeps both indices below the length). -/
def listSwap (l : List α) (i j : Nat) : List α :=
  match l.get? i, l.get? j with
  | some a, some b => (l.set i b).set j a
  | _, _ => l

/-- The Fisher-Yates loop of numpy RandomState.shuffle: for i = n-1 down
to 1, draw j uniform in [0, i] and swap positions i and j.  The argument
counts the current value of i. -/
def shuffleSteps : Nat → List α → MTState → List α × MTState
  | 0, l, s => (l, s)
  | i + 1, l, s =>
    let js := randomInterval s (i + 1)
    shuffleSteps i (listSwap l (i + 1) js.1) js.2

/-- numpy RandomState.shuffle on a list. -/
def npShuffle (l : List α) (s : MTState) : List α × MTState :=
  shuffleSteps (l.length - 1) l s

/-- numpy RandomState.permutation(n): shuffle of arange(n). -/
def npPermutation (n : Nat) (s : MTState) : List Nat × MTState :=
  npShuffle (List.range n) s

/-- The number of test samples scikit-learn derives from test_size=0.4:
the source computes ceil(0.4 * n) in binary64.  fl(0.4) equals
3602879701896397 / 2^53 = 0.4 * (1 + 2^-54); for every n below 2^52 the
rounded product fl(fl(0.4) * n) ceils to the exact rational ceiling of
2n/5 (when 5 divides n the excess n * 2^-54 * 0.4 is under half an ulp of
the integer 2n/5, so the product rounds back to it; otherwise the product
stays strictly between the neighbouring integers), hence the Nat form
(2n + 4) / 5. -/
def ceilTimes04 (n : Nat) : Nat := (2 * n + 4) / 5

/-- The number of test samples scikit-learn derives from test_size=0.5:
ceil(0.5 * n), exact in binary64 since 0.5 is a power of two. -/
def ceilTimes05 (n : Nat) : Nat := (n + 1) / 2

/-- Python exception classes surfaced by the code paths modelled here. -/
inductive PyError
  | keyError
  | valueError
  | osError
deriving DecidableEq

/-- scikit-learn train_test_split(l, test_size, random_state=seed) with
shuffle=True and no stratification, parametrised by the test-count
function of the length: validate the sizes (ValueError when the train
side would be empty), draw one full permutation from a fresh
RandomState(seed), and return (train, test) with
test = l[permutation[:n_test]] and
train = l[permutation[n_test : n_test + n_train]]. -/
def train_test_split [Inhabited β] (nTestOf : Nat → Nat) (l : List β) (seed : Nat) :
    Except PyError (List β × List β) :=
  let n := l.length
  let nTest := nTestOf n
  let nTrain := n - nTest
  if nTrain = 0 then .error .valueError
  else
    let p := (npPermutation n (RandomState seed)).1
    let g := fun i => l.getD i default
    .ok (((p.drop nTest).take nTrain).map g, (p.take nTest).map g)

/-- Accumulator form of pandas Series.unique: keep the first occurrence
of each value, in order of first appearance. -/
def uniqueAux [DecidableEq β] (seen : List β) : List β → List β
  | [] => []
  | a :: rest => if a ∈ seen then uniqueAux seen rest else a :: uniqueAux (a :: seen) rest

/-- pandas Series.unique: distinct values in order of first appearance. -/
def pdUnique [DecidableEq β] (l : List β) : List β := uniqueAux [] l

/-- A pandas DataFrame, seen as its named columns; cell values range over
an arbitrary decidable type. -/
abbrev DataFrame (β : Type) := List (String × List β)

/-- Column selection dataframe[name]: the first column with the given
name, none when the name is absent (pandas raises KeyError). -/
def getColumn (df : DataFrame β) (name : String) : Option (List β) :=
  (df.find? (fun c => decide (c.1 = name))).map (fun c => c.2)

/-- Filesystem paths as component lists (os.path.join appends a
component). -/
abbrev Path := List String

/-- All nonempty prefixes of a path: the directories os.makedirs
creates. -/
def ancestors (p : Path) : List Path :=
  (List.range p.length).map (fun k => p.take (k + 1))

/-- Filesystem state seen by create_user_splits: existing directories and
the files with their written row contents.  The files field is a write
log, newest first; readFile returns the most recent write, so writing to
an existing path overwrites its visible content. -/
structure SplitFS (β : Type) where
  dirs : List Path
  files : List (Path × List β)

/-- os.path.exists: true for a directory or a file at the path. -/
def pathExists [DecidableEq β] (fs : SplitFS β) (p : Path) : Bool :=
  decide (p ∈ fs.dirs) || fs.files.any (fun q => decide (q.1 = p))

/-- os.makedirs: create the directory and every missing ancestor. -/
def makedirs (fs : SplitFS β) (p : Path) : SplitFS β :=
  { fs with dirs := ancestors p ++ fs.dirs }

/-- pandas DataFrame.to_csv(os.path.join(dir, name), index=False): write
the rows when the parent directory exists, raise OSError otherwise. -/
def to_csv (fs : SplitFS β) (dir : Path) (name : String) (content : List β) :
    Except PyError (SplitFS β) :=
  if dir ∈ fs.dirs then .ok { fs with files := (dir ++ [name], content) :: fs.files }
  else .error .osError

/-- Content of the file at a path: the most recently written rows. -/
def readFile (fs : SplitFS β) (p : Path) : Option (List β) :=
  (fs.files.find? (fun q => decide (q.1 = p))).map (fun q => q.2)

/-- Lines 121-123 of the source: create the target directory when
os.path.exists is false. -/
def ensureDir [DecidableEq β] (fs : SplitFS β) (p : Path) : SplitFS β :=
  if pathExists fs p then fs else makedirs fs p

/-- Target-directory paths on which the three to_csv calls can succeed:
an existing directory, or a fresh nonempty path that makedirs can
create.  (A path occupied by a file, or the empty path, makes the write
fail in Python as well.) -/
def dirOk [DecidableEq β] (fs : SplitFS β) (d : Path) : Prop :=
  d ∈ fs.dirs ∨ (pathExists fs d = false ∧ d ≠ [])

/-- The column name create_user_splits selects. -/
def userIdKey : String := "user_id"

/-- The three output file names of create_user_splits. -/
def trainName : String := "train_users.csv"

/-- The validation output file name. -/
def valName : String := "val_users.csv"

/-- The test output file name. -/
def testName : String := "test_users.csv"

/-- The pure data computation of create_user_splits, in source order:
select the user_id column (KeyError when absent), deduplicate it, split
60/40 with the seed, split the 40% remainder 50/50 with the same seed. -/
def splitUserIds [DecidableEq β] [Inhabited β] (df : DataFrame β) (seed : Nat) :
    Except PyError (List β × List β × List β) :=
  match getColumn df userIdKey with
  | none => .error .keyError
  | some col =>
    match train_test_split ceilTimes04 (pdUnique col) seed with
    | .error e => .error e
    | .ok (train_ids, temp_ids) =>
      match train_test_split ceilTimes05 temp_ids seed with
      | .error e => .error e
      | .ok (val_ids, test_ids) => .ok (train_ids, val_ids, test_ids)

/-- create_user_splits(dataframe, data_dir, seed): create the target
directory when absent, compute the three id subsets, and write
train_users.csv, val_users.csv and test_users.csv under the target
directory.  The result pairs the filesystem reached with the exception
raised, if any (the directory creation precedes the column access in the
source, so a KeyError still leaves the created directory behind). -/
def create_user_splits [DecidableEq β] [Inhabited β] (df : DataFrame β) (fs : SplitFS β)
    (data_dir : Path) (seed : Nat) : SplitFS β × Option PyError :=
  let fs1 := ensureDir fs data_dir
  match splitUserIds df seed with
  | .error e => (fs1, some e)
  | .ok (train_ids, val_ids, test_ids) =>
    match to_csv fs1 data_dir trainName train_ids with
    | .error e => (fs1, some e)
    | .ok fs2 =>
      match to_csv fs2 data_dir valName val_ids with
      | .error e => (fs2, some e)
      | .ok fs3 =>
        match to_csv fs3 data_dir testName test_ids with
        | .error e => (fs3, some e)
        | .ok fs4 => (fs4, none)

/-- The externally visible work steps of the acquisition function. -/
inductive AcqEffect
  | download
  | extract
deriving DecidableEq

/-- Filesystem state seen by the acquisition function: the set of
existing paths (os.path.exists does not distinguish files from
directories). -/
structure AcqFS where
  paths : List Path
deriving DecidableEq

/-- The archive file name. -/
def zipName : String := "ml-1m.zip"

/-- The extraction directory name.  The archive bundles a top-level
ml-1m directory, so extracting into data_dir creates this path. -/
def extractName : String := "ml-1m"

/-- os.path.exists over the acquisition filesystem. -/
def acqExists (fs : AcqFS) (p : Path) : Bool := decide (p ∈ fs.paths)

/-- Lines 40-41 of the source: os.makedirs(data_dir) guarded by
os.path.exists. -/
def acqEnsureDir (fs : AcqFS) (d : Path) : AcqFS :=
  if acqExists fs d then fs else AcqFS.mk (ancestors d ++ fs.paths)

/-- Lines 44-49 of the source: urlretrieve the archive, guarded by
os.path.exists on the archive path. -/
def acqFetch (fs : AcqFS) (zip : Path) : AcqFS × List AcqEffect :=
  if acqExists fs zip then (fs, []) else (AcqFS.mk (zip :: fs.paths), [AcqEffect.download])

/-- Lines 52-58 of the source: extract the archive, guarded by
os.path.exists on the extraction path.  The archive bundles a top-level
ml-1m directory, so extraction creates exactly that path. -/
def acqExtract (fs : AcqFS) (extr : Path) : AcqFS × List AcqEffect :=
  if acqExists fs extr then (fs, []) else (AcqFS.mk (extr :: fs.paths), [AcqEffect.extract])

/-- download_and_extract_movielens_1m(data_dir): create the directory
when absent, download the archive when absent, extract when the
extraction directory is absent.  Returns the filesystem reached and the
list of work effects performed. -/
def download_and_extract_movielens_1m (fs : AcqFS) (data_dir : Path) :
    AcqFS × List AcqEffect :=
  let fs1 := acqEnsureDir fs data_dir
  let step2 := acqFetch fs1 (data_dir ++ [zipName])
  let step3 := acqExtract step2.1 (data_dir ++ [extractName])
  (step3.1, step2.2 ++ step3.2)

/-- An in-memory pandas table: the column names and the parsed rows. -/
structure Table where
  cols : List String
  rows : List (List String)
deriving DecidableEq

/-- The two-character field separator of the .dat files. -/
def sepToken : String := "::"

/-- pandas read_csv(path, sep ..., header=None, names=names,
engine=python): blank lines are skipped (skip_blank_lines default), every
remaining line becomes one row by splitting on the separator. -/
def readCsv (lines : List String) (names : List String) : Table :=
  ⟨names, (lines.filter (fun s => decide (s ≠ ""))).map (fun s => s.splitOn sepToken)⟩

/-- Column schema of ratings.dat. -/
def ratingsCols : List String := ["user_id", "movie_id", "rating", "timestamp"]

/-- Column schema of users.dat. -/
def usersCols : List String := ["user_id", "gender", "age", "occupation", "zip_code"]

/-- Column schema of movies.dat. -/
def moviesCols : List String := ["movie_id", "title", "genres"]

/-- load_movielens_ratings, applied to the lines of ratings.dat. -/
def load_movielens_ratings (lines : List String) : Table := readCsv lines ratingsCols

/-- load_movielens_users, applied to the lines of users.dat. -/
def load_movielens_users (lines : List String) : Table := readCsv lines usersCols

/-- load_movielens_movies, applied to the lines of movies.dat. -/
def load_movielens_movies (lines : List String) : Table := readCsv lines moviesCols

/-- age_mapping(): the fixed age-code table.  The source builds and
returns this dictionary afresh on every call, with no argument and no
side effect, so it is a constant of the model. -/
def age_mapping : List (Nat × String) :=
  [(1, "Under 18"), (18, "18-24"), (25, "25-34"), (35, "35-44"),
   (45, "45-49"), (50, "50-55"), (56, "56+")]

/-- occupation_mapping(): the fixed occupation-code table, likewise a
pure constant. -/
def occupation_mapping : List (Nat × String) :=
  [(0, "other or not specified"), (1, "academic/educator"), (2, "artist"),
   (3, "clerical/admin"), (4, "college/grad student"), (5, "customer service"),
   (6, "doctor/health care"), (7, "executive/managerial"), (8, "farmer"),
   (9, "homemaker"), (10, "K-12 student"), (11, "lawyer"), (12, "programmer"),
   (13, "retired"), (14, "sales/marketing"), (15, "scientist"),
   (16, "self-employed"), (17, "technician/engineer"), (18, "tradesman/craftsman"),
   (19, "unemployed"), (20, "writer")]

end MovieLens

namespace MovieLens

/-! ### Generic properties of the shuffle machinery -/

/-- Moving the k-th element of a list to the front while planting a in
its place is a permutation-preserving exchange. -/
theorem cons_set_perm : ∀ (t : List α) (k : Nat) (a b : α),
    t.get? k = some b → List.Perm (b :: t.set k a) (a :: t) := by
  intro t
  induction t with
  | nil => intro k a b h; simp at h
  | cons c t ih =>
    intro k a b h
    cases k with
    | zero =>
      simp only [List.get?_cons_zero, Option.some.injEq] at h
      subst h
      exact List.Perm.swap a c t
    | succ k =>
      simp only [List.get?_cons_succ] at h
      have ihp := ih k a b h
      exact (List.Perm.swap c b (t.set k a)).trans ((ihp.cons c).trans (List.Perm.swap a c t))

/-- Writing the i-th element at position j and the j-th element at
position i permutes the list. -/
theorem set_set_perm : ∀ (l : List α) (i j : Nat) (a b : α),
    l.get? i = some a → l.get? j = some b → List.Perm ((l.set i b).set j a) l := by
  intro l
  induction l with
  | nil => intro i j a b hi _; simp at hi
  | cons c t ih =>
    intro i j a b hi hj
    cases i with
    | zero =>
      simp only [List.get?_cons_zero, Option.some.injEq] at hi
      subst hi
      cases j with
      | zero =>
        simp only [List.get?_cons_zero, Option.some.injEq] at hj
        subst hj
        exact List.Perm.refl _
      | succ k =>
        simp only [List.get?_cons_succ] at hj
        exact cons_set_perm t k c b hj
    | succ m =>
      simp only [List.get?_cons_succ] at hi
      cases j with
      | zero =>
        simp only [List.get?_cons_zero, Option.some.injEq] at hj
        subst hj
        exact cons_set_perm t m c a hi
      | succ k =>
        simp only [List.get?_cons_succ] at hj
        exact (ih m k a b hi hj).cons c

/-- A listSwap is a permutation of the original list. -/
theorem listSwap_perm (l : List α) (i j : Nat) : List.Perm (listSwap l i j) l := by
  rcases hi : l.get? i with _ | a
  · simp only [listSwap, hi]
    exact List.Perm.refl l
  · rcases hj : l.get? j with _ | b
    · simp only [listSwap, hi, hj]
      exact List.Perm.refl l
    · simp only [listSwap, hi, hj]
      exact set_set_perm l i j a b hi hj

/-- Unfolding equation of the shuffle loop. -/
theorem shuffleSteps_succ (i : Nat) (l : List α) (s : MTState) :
    shuffleSteps (i + 1) l s =
      shuffleSteps i (listSwap l (i + 1) (randomInterval s (i + 1)).1)
        (randomInterval s (i + 1)).2 := rfl

/-- The shuffle loop permutes its list, whatever the generator state. -/
theorem shuffleSteps_fst_perm : ∀ (k : Nat) (l : List α) (s : MTState),
    List.Perm (shuffleSteps k l s).1 l := by
  intro k
  induction k with
  | zero => intro l s; exact List.Perm.refl l
  | succ i ih =>
    intro l s
    rw [shuffleSteps_succ]
    exact (ih _ _).trans (listSwap_perm _ _ _)

/-- RandomState.permutation(n) is a permutation of 0 .. n-1. -/
theorem npPermutation_perm (n : Nat) (s : MTState) :
    List.Perm (npPermutation n s).1 (List.range n) := by
  simpa [npPermutation, npShuffle] using
    shuffleSteps_fst_perm ((List.range n).length - 1) (List.range n) s

/-- RandomState.permutation(n) has n entries. -/
theorem npPermutation_length (n : Nat) (s : MTState) :
    (npPermutation n s).1.length = n := by
  simpa using (npPermutation_perm n s).length_eq

/-- Reading a list back at the positions 0 .. length-1 returns the
list. -/
theorem map_getD_range [Inhabited β] (l : List β) :
    (List.range l.length).map (fun i => l.getD i default) = l := by
  induction l with
  | nil => simp
  | cons a t ih =>
    rw [List.length_cons, List.range_succ_eq_map, List.map_cons, List.map_map]
    simp only [Function.comp_def, List.getD_cons_succ, List.getD_cons_zero]
    rw [ih]

/-! ### Characterization of the modelled train_test_split -/

/-- A successful train_test_split has the validated sizes and returns a
partition: train followed by test is a permutation of the input. -/
theorem train_test_split_ok_spec [Inhabited β] {f : Nat → Nat} {l : List β} {seed : Nat}
    {tr te : List β} (h : train_test_split f l seed = .ok (tr, te)) :
    f l.length < l.length ∧ tr.length = l.length - f l.length ∧
      te.length = f l.length ∧ List.Perm (tr ++ te) l := by
  simp only [train_test_split] at h
  split at h
  · cases h
  · rename_i hc
    have hlt : f l.length < l.length := by omega
    injection h with h1
    injection h1 with htr hte
    subst htr
    subst hte
    have hp := npPermutation_perm l.length (RandomState seed)
    have hplen := npPermutation_length l.length (RandomState seed)
    set p := (npPermutation l.length (RandomState seed)).1 with hpdef
    have hdroplen : (p.drop (f l.length)).length = l.length - f l.length := by
      rw [List.length_drop, hplen]
    have htake : (p.drop (f l.length)).take (l.length - f l.length) = p.drop (f l.length) := by
      apply List.take_of_length_le
      omega
    refine ⟨hlt, ?_, ?_, ?_⟩
    · rw [List.length_map, htake, hdroplen]
    · rw [List.length_map, List.length_take, hplen]
      omega
    · rw [htake, ← List.map_append]
      have h0 : p.take (f l.length) ++ p.drop (f l.length) = p :=
        List.take_append_drop _ p
      have h1 : List.Perm (p.drop (f l.length) ++ p.take (f l.length)) p := by
        conv_rhs => rw [← h0]
        exact List.perm_append_comm
      have h2 : List.Perm (p.map (fun i => l.getD i default)) l := by
        have h3 := hp.map (fun i => l.getD i default)
        rwa [map_getD_range] at h3
      exact (h1.map _).trans h2

/-- train_test_split raises ValueError exactly when the train side would
be empty. -/
theorem train_test_split_err [Inhabited β] (f : Nat → Nat) (l : List β) (seed : Nat)
    (h : l.length ≤ f l.length) : train_test_split f l seed = .error .valueError := by
  simp only [train_test_split]
  rw [if_pos (by omega)]

/-- train_test_split succeeds whenever the test count is below the
length. -/
theorem train_test_split_isOk [Inhabited β] (f : Nat → Nat) (l : List β) (seed : Nat)
    (h : f l.length < l.length) :
    ∃ tr te, train_test_split f l seed = .ok (tr, te) := by
  simp only [train_test_split]
  rw [if_neg (by omega)]
  exact ⟨_, _, rfl⟩

end MovieLens

namespace MovieLens

/-! ### Properties of the modelled pandas unique -/

/-- Membership in the deduplication accumulator loop. -/
theorem mem_uniqueAux [DecidableEq β] (l : List β) :
    ∀ (seen : List β) (x : β), x ∈ uniqueAux seen l ↔ x ∈ l ∧ x ∉ seen := by
  induction l with
  | nil =>
    intro seen x
    simp [uniqueAux]
  | cons a t ih =>
    intro seen x
    simp only [uniqueAux]
    by_cases h : a ∈ seen
    · rw [if_pos h, ih]
      simp only [List.mem_cons]
      constructor
      · rintro ⟨hx, hs⟩
        exact ⟨Or.inr hx, hs⟩
      · rintro ⟨hx | hx, hs⟩
        · subst hx
          exact absurd h hs
        · exact ⟨hx, hs⟩
    · rw [if_neg h]
      simp only [List.mem_cons, ih]
      constructor
      · rintro (hx | ⟨hx, hs⟩)
        · subst hx
          exact ⟨Or.inl rfl, h⟩
        · exact ⟨Or.inr hx, fun hxx => hs (Or.inr hxx)⟩
      · rintro ⟨hx | hx, hs⟩
        · exact Or.inl hx
        · by_cases hxa : x = a
          · exact Or.inl hxa
          · exact Or.inr ⟨hx, fun h12 => h12.elim hxa hs⟩

/-- The deduplication loop never repeats a value. -/
theorem nodup_uniqueAux [DecidableEq β] (l : List β) :
    ∀ seen : List β, (uniqueAux seen l).Nodup := by
  induction l with
  | nil =>
    intro seen
    simp [uniqueAux]
  | cons a t ih =>
    intro seen
    simp only [uniqueAux]
    split
    · exact ih seen
    · rw [List.nodup_cons]
      refine ⟨fun hmem => ?_, ih (a :: seen)⟩
      rw [mem_uniqueAux] at hmem
      exact hmem.2 (List.mem_cons_self a seen)

/-- pandas unique returns distinct values. -/
theorem pdUnique_nodup [DecidableEq β] (l : List β) : (pdUnique l).Nodup :=
  nodup_uniqueAux l []

/-- pandas unique keeps exactly the values of the input. -/
theorem mem_pdUnique [DecidableEq β] (l : List β) (x : β) : x ∈ pdUnique l ↔ x ∈ l := by
  simp [pdUnique, mem_uniqueAux]

/-! ### Characterization of splitUserIds -/

/-- A successful splitUserIds returns three lists whose concatenation
permutes the distinct user ids, with the sizes dictated by the two
splitters. -/
theorem splitUserIds_ok_spec [DecidableEq β] [Inhabited β] {df : DataFrame β} {seed : Nat}
    {tr v te col : List β}
    (hcol : getColumn df userIdKey = some col)
    (h : splitUserIds df seed = .ok (tr, v, te)) :
    List.Perm (tr ++ v ++ te) (pdUnique col) ∧
      tr.length = (pdUnique col).length - ceilTimes04 (pdUnique col).length ∧
      v.length = ceilTimes04 (pdUnique col).length -
        ceilTimes05 (ceilTimes04 (pdUnique col).length) ∧
      te.length = ceilTimes05 (ceilTimes04 (pdUnique col).length) := by
  unfold splitUserIds at h
  split at h
  · rename_i heq
    rw [hcol] at heq
    cases heq
  · rename_i col1 heq
    rw [hcol] at heq
    injection heq with heq1
    subst heq1
    split at h
    · cases h
    · rename_i tr1 temp h1
      split at h
      · cases h
      · rename_i v1 te1 h2
        injection h with h3
        obtain ⟨ht1, ht2, ht3⟩ : tr1 = tr ∧ v1 = v ∧ te1 = te :=
          ⟨congrArg Prod.fst h3, congrArg Prod.fst (congrArg Prod.snd h3),
            congrArg Prod.snd (congrArg Prod.snd h3)⟩
        subst ht1
        subst ht2
        subst ht3
        obtain ⟨hlt1, hlen1, hlen1t, hperm1⟩ := train_test_split_ok_spec h1
        obtain ⟨hlt2, hlen2, hlen2t, hperm2⟩ := train_test_split_ok_spec h2
        refine ⟨?_, ?_, ?_, ?_⟩
        · rw [List.append_assoc]
          exact (hperm2.append_left _).trans hperm1
        · exact hlen1
        · rw [hlen2, hlen1t]
        · rw [hlen2t, hlen1t]

/-- Reduction of splitUserIds on a dataframe with a user_id column. -/
theorem splitUserIds_eq [DecidableEq β] [Inhabited β] (df : DataFrame β)
    (col : List β) (seed : Nat) (hcol : getColumn df userIdKey = some col) :
    splitUserIds df seed =
      match train_test_split ceilTimes04 (pdUnique col) seed with
      | .error e => .error e
      | .ok (train_ids, temp_ids) =>
        match train_test_split ceilTimes05 temp_ids seed with
        | .error e => .error e
        | .ok (val_ids, test_ids) => .ok (train_ids, val_ids, test_ids) := by
  unfold splitUserIds
  rw [hcol]

/-- Reduction of splitUserIds once the first split is known to have
succeeded. -/
theorem splitUserIds_eq2 [DecidableEq β] [Inhabited β] (df : DataFrame β)
    (col tr temp : List β) (seed : Nat)
    (hcol : getColumn df userIdKey = some col)
    (htts : train_test_split ceilTimes04 (pdUnique col) seed = .ok (tr, temp)) :
    splitUserIds df seed =
      match train_test_split ceilTimes05 temp seed with
      | .error e => .error e
      | .ok (val_ids, test_ids) => .ok (tr, val_ids, test_ids) := by
  rw [splitUserIds_eq df col seed hcol, htts]

/-- splitUserIds succeeds on any dataframe whose user_id column has at
least three distinct values. -/
theorem splitUserIds_ok_of_three_le [DecidableEq β] [Inhabited β] (df : DataFrame β)
    (col : List β) (seed : Nat)
    (hcol : getColumn df userIdKey = some col) (h3 : 3 ≤ (pdUnique col).length) :
    ∃ tr v te, splitUserIds df seed = .ok (tr, v, te) := by
  have h1 : ceilTimes04 (pdUnique col).length < (pdUnique col).length := by
    unfold ceilTimes04
    omega
  obtain ⟨tr, temp, htts⟩ := train_test_split_isOk ceilTimes04 (pdUnique col) seed h1
  have hlen : temp.length = ceilTimes04 (pdUnique col).length :=
    (train_test_split_ok_spec htts).2.2.1
  have h2 : ceilTimes05 temp.length < temp.length := by
    rw [hlen]
    unfold ceilTimes05 ceilTimes04
    omega
  obtain ⟨v, te, htts2⟩ := train_test_split_isOk ceilTimes05 temp seed h2
  refine ⟨tr, v, te, ?_⟩
  rw [splitUserIds_eq2 df col tr temp seed hcol htts, htts2]

/-- splitUserIds raises ValueError on any dataframe whose user_id column
has fewer than three distinct values. -/
theorem splitUserIds_err_of_lt_three [DecidableEq β] [Inhabited β] (df : DataFrame β)
    (col : List β) (seed : Nat)
    (hcol : getColumn df userIdKey = some col) (h3 : (pdUnique col).length < 3) :
    splitUserIds df seed = .error .valueError := by
  rcases Nat.lt_or_ge (pdUnique col).length 2 with h2 | h2
  · have herr : train_test_split ceilTimes04 (pdUnique col) seed = .error .valueError := by
      apply train_test_split_err
      unfold ceilTimes04
      omega
    rw [splitUserIds_eq df col seed hcol, herr]
  · have hn2 : (pdUnique col).length = 2 := by omega
    have h1 : ceilTimes04 (pdUnique col).length < (pdUnique col).length := by
      rw [hn2]
      decide
    obtain ⟨tr, temp, htts⟩ := train_test_split_isOk ceilTimes04 (pdUnique col) seed h1
    have hlen : temp.length = ceilTimes04 (pdUnique col).length :=
      (train_test_split_ok_spec htts).2.2.1
    have herr2 : train_test_split ceilTimes05 temp seed = .error .valueError := by
      apply train_test_split_err
      rw [hlen, hn2]
      decide
    rw [splitUserIds_eq2 df col tr temp seed hcol htts, herr2]

/-- splitUserIds raises KeyError when the user_id column is absent. -/
theorem splitUserIds_keyError [DecidableEq β] [Inhabited β] (df : DataFrame β) (seed : Nat)
    (hcol : getColumn df userIdKey = none) :
    splitUserIds df seed = .error .keyError := by
  unfold splitUserIds
  rw [hcol]

end MovieLens

namespace MovieLens

/-! ### Filesystem lemmas for the split writer -/

/-- A nonempty path is among its own ancestors. -/
theorem mem_ancestors_self (p : Path) (hp : p ≠ []) : p ∈ ancestors p := by
  unfold ancestors
  rw [List.mem_map]
  have hpos : 0 < p.length := List.length_pos.mpr hp
  refine ⟨p.length - 1, ?_, ?_⟩
  · rw [List.mem_range]
    omega
  · have h1 : p.length - 1 + 1 = p.length := by omega
    rw [h1, List.take_length]

/-- ensureDir never touches the files. -/
theorem ensureDir_files [DecidableEq β] (fs : SplitFS β) (d : Path) :
    (ensureDir fs d).files = fs.files := by
  unfold ensureDir makedirs
  split <;> rfl

/-- On a dirOk path, the target directory exists after ensureDir. -/
theorem dirOk_mem_ensureDir [DecidableEq β] (fs : SplitFS β) (d : Path) (hd : dirOk fs d) :
    d ∈ (ensureDir fs d).dirs := by
  unfold ensureDir
  rcases hd with h | ⟨hpe, hne⟩
  · split
    · exact h
    · exact List.mem_append_right _ h
  · rw [hpe]
    simp only [Bool.false_eq_true, if_false, makedirs]
    exact List.mem_append_left _ (mem_ancestors_self d hne)

/-- to_csv on an existing directory appends the file record. -/
theorem to_csv_ok [DecidableEq β] (fs : SplitFS β) (dir : Path) (name : String)
    (c : List β) (h : dir ∈ fs.dirs) :
    to_csv fs dir name c = .ok ⟨fs.dirs, (dir ++ [name], c) :: fs.files⟩ := by
  unfold to_csv
  rw [if_pos h]

/-- Reading back the path written last. -/
theorem readFile_cons_self [DecidableEq β] (ds : List Path) (p : Path) (c : List β)
    (rest : List (Path × List β)) :
    readFile ⟨ds, (p, c) :: rest⟩ p = some c := by
  unfold readFile
  rw [List.find?_cons_of_pos]
  · rfl
  · simp

/-- Reading another path skips the last write. -/
theorem readFile_cons_ne [DecidableEq β] (ds : List Path) (p q : Path) (c : List β)
    (rest : List (Path × List β)) (hne : q ≠ p) :
    readFile ⟨ds, (q, c) :: rest⟩ p = readFile ⟨ds, rest⟩ p := by
  unfold readFile
  rw [List.find?_cons_of_neg]
  simp [hne]

/-- Paths that differ in their final component differ. -/
theorem path_snoc_ne (d : Path) (a b : String) (h : a ≠ b) : d ++ [a] ≠ d ++ [b] := by
  intro hc
  apply h
  have := List.append_cancel_left hc
  simpa using this

/-- When splitUserIds succeeds and the directory is writable, the call
returns no error and the final filesystem is the input one extended
with the directory and the three files, written train, val, test. -/
theorem create_user_splits_eq_ok [DecidableEq β] [Inhabited β] (df : DataFrame β)
    (fs : SplitFS β) (d : Path) (seed : Nat) (tr v te : List β)
    (hspl : splitUserIds df seed = .ok (tr, v, te)) (hd : dirOk fs d) :
    create_user_splits df fs d seed =
      (⟨(ensureDir fs d).dirs,
        (d ++ [testName], te) :: (d ++ [valName], v) :: (d ++ [trainName], tr) ::
          (ensureDir fs d).files⟩, none) := by
  have hd1 : d ∈ (ensureDir fs d).dirs := dirOk_mem_ensureDir fs d hd
  have h1 := to_csv_ok (ensureDir fs d) d trainName tr hd1
  have h2 := to_csv_ok (⟨(ensureDir fs d).dirs, (d ++ [trainName], tr) ::
    (ensureDir fs d).files⟩ : SplitFS β) d valName v hd1
  have h3 := to_csv_ok (⟨(ensureDir fs d).dirs, (d ++ [valName], v) ::
    (d ++ [trainName], tr) :: (ensureDir fs d).files⟩ : SplitFS β) d testName te hd1
  simp only [create_user_splits, hspl, h1, h2, h3]

/-- When splitUserIds raises, the call surfaces that error and only the
directory-creation side effect has happened. -/
theorem create_user_splits_eq_err [DecidableEq β] [Inhabited β] (df : DataFrame β)
    (fs : SplitFS β) (d : Path) (seed : Nat) (e : PyError)
    (hspl : splitUserIds df seed = .error e) :
    create_user_splits df fs d seed = (ensureDir fs d, some e) := by
  simp only [create_user_splits, hspl]

end MovieLens

namespace MovieLens

/-! ### Acquisition lemmas -/

/-- Ensuring the empty path changes nothing (it has no ancestors). -/
theorem acqEnsureDir_nil (fs : AcqFS) : acqEnsureDir fs [] = fs := by
  unfold acqEnsureDir
  split
  · rfl
  · have h : ancestors ([] : Path) = [] := by simp [ancestors]
    rw [h, List.nil_append]

/-- A nonempty directory exists after acqEnsureDir. -/
theorem mem_acqEnsureDir (fs : AcqFS) (d : Path) (hd : d ≠ []) :
    d ∈ (acqEnsureDir fs d).paths := by
  unfold acqEnsureDir
  split
  · rename_i h
    simpa [acqExists] using h
  · exact List.mem_append_left _ (mem_ancestors_self d hd)

/-- acqEnsureDir only adds paths. -/
theorem acqEnsureDir_mono (fs : AcqFS) (d p : Path) (h : p ∈ fs.paths) :
    p ∈ (acqEnsureDir fs d).paths := by
  unfold acqEnsureDir
  split
  · exact h
  · exact List.mem_append_right _ h

/-- acqEnsureDir is the identity on an existing directory. -/
theorem acqEnsureDir_of_mem (fs : AcqFS) (d : Path) (h : d ∈ fs.paths) :
    acqEnsureDir fs d = fs := by
  unfold acqEnsureDir
  have hb : acqExists fs d = true := by simp [acqExists, h]
  rw [if_pos hb]

/-- The archive path exists after acqFetch. -/
theorem mem_acqFetch_self (fs : AcqFS) (z : Path) : z ∈ (acqFetch fs z).1.paths := by
  unfold acqFetch
  split
  · rename_i h
    simpa [acqExists] using h
  · exact List.mem_cons_self _ _

/-- acqFetch only adds paths. -/
theorem acqFetch_mono (fs : AcqFS) (z p : Path) (h : p ∈ fs.paths) :
    p ∈ (acqFetch fs z).1.paths := by
  unfold acqFetch
  split
  · exact h
  · exact List.mem_cons_of_mem _ h

/-- acqFetch skips the download when the archive already exists. -/
theorem acqFetch_of_mem (fs : AcqFS) (z : Path) (h : z ∈ fs.paths) :
    acqFetch fs z = (fs, []) := by
  unfold acqFetch
  have hb : acqExists fs z = true := by simp [acqExists, h]
  rw [if_pos hb]

/-- acqFetch never reports an extraction. -/
theorem extract_not_mem_acqFetch (fs : AcqFS) (z : Path) :
    AcqEffect.extract ∉ (acqFetch fs z).2 := by
  unfold acqFetch
  split <;> simp

/-- The extraction path exists after acqExtract. -/
theorem mem_acqExtract_self (fs : AcqFS) (x : Path) : x ∈ (acqExtract fs x).1.paths := by
  unfold acqExtract
  split
  · rename_i h
    simpa [acqExists] using h
  · exact List.mem_cons_self _ _

/-- acqExtract only adds paths. -/
theorem acqExtract_mono (fs : AcqFS) (x p : Path) (h : p ∈ fs.paths) :
    p ∈ (acqExtract fs x).1.paths := by
  unfold acqExtract
  split
  · exact h
  · exact List.mem_cons_of_mem _ h

/-- acqExtract skips the extraction when the directory already exists. -/
theorem acqExtract_of_mem (fs : AcqFS) (x : Path) (h : x ∈ fs.paths) :
    acqExtract fs x = (fs, []) := by
  unfold acqExtract
  have hb : acqExists fs x = true := by simp [acqExists, h]
  rw [if_pos hb]

/-- acqExtract never reports a download. -/
theorem download_not_mem_acqExtract (fs : AcqFS) (x : Path) :
    AcqEffect.download ∉ (acqExtract fs x).2 := by
  unfold acqExtract
  split <;> simp

/-- Zeta-expanded form of the acquisition function. -/
theorem download_and_extract_eq (fs : AcqFS) (d : Path) :
    download_and_extract_movielens_1m fs d =
      ((acqExtract (acqFetch (acqEnsureDir fs d) (d ++ [zipName])).1 (d ++ [extractName])).1,
        (acqFetch (acqEnsureDir fs d) (d ++ [zipName])).2 ++
          (acqExtract (acqFetch (acqEnsureDir fs d) (d ++ [zipName])).1
            (d ++ [extractName])).2) := rfl

end MovieLens

namespace MovieLens

/-- On a fresh path, ensureDir runs makedirs. -/
theorem ensureDir_dirs_of_fresh [DecidableEq β] (fs : SplitFS β) (d : Path)
    (h : pathExists fs d = false) :
    (ensureDir fs d).dirs = ancestors d ++ fs.dirs := by
  unfold ensureDir
  rw [h]
  simp only [Bool.false_eq_true, if_false, makedirs]

/-! ### Claims -/

/-- C5: acquisition is idempotent.  When the archive file already exists
no download effect is performed; when the extraction directory already
exists no extraction effect is performed; and a second call right after
a first one performs neither effect and returns the filesystem of the
first call unchanged. -/
theorem C5_acquisition_idempotent (fs : AcqFS) (d : Path) :
    ((d ++ [zipName]) ∈ fs.paths →
      AcqEffect.download ∉ (download_and_extract_movielens_1m fs d).2) ∧
    ((d ++ [extractName]) ∈ fs.paths →
      AcqEffect.extract ∉ (download_and_extract_movielens_1m fs d).2) ∧
    download_and_extract_movielens_1m (download_and_extract_movielens_1m fs d).1 d =
      ((download_and_extract_movielens_1m fs d).1, []) := by
  refine ⟨?_, ?_, ?_⟩
  · intro hzip
    rw [download_and_extract_eq]
    intro hmem
    rw [List.mem_append] at hmem
    rcases hmem with hm | hm
    · rw [acqFetch_of_mem _ _ (acqEnsureDir_mono fs d _ hzip)] at hm
      simp at hm
    · exact download_not_mem_acqExtract _ _ hm
  · intro hext
    rw [download_and_extract_eq]
    intro hmem
    rw [List.mem_append] at hmem
    rcases hmem with hm | hm
    · exact extract_not_mem_acqFetch _ _ hm
    · rw [acqExtract_of_mem _ _
        (acqFetch_mono _ _ _ (acqEnsureDir_mono fs d _ hext))] at hm
      simp at hm
  · have hzip1 : (d ++ [zipName]) ∈ (download_and_extract_movielens_1m fs d).1.paths := by
      rw [download_and_extract_eq]
      exact acqExtract_mono _ _ _ (mem_acqFetch_self _ _)
    have hext1 : (d ++ [extractName]) ∈ (download_and_extract_movielens_1m fs d).1.paths := by
      rw [download_and_extract_eq]
      exact mem_acqExtract_self _ _
    have hstep1 : acqEnsureDir (download_and_extract_movielens_1m fs d).1 d =
        (download_and_extract_movielens_1m fs d).1 := by
      by_cases hd : d = []
      · rw [hd]
        exact acqEnsureDir_nil _
      · apply acqEnsureDir_of_mem
        rw [download_and_extract_eq]
        exact acqExtract_mono _ _ _ (acqFetch_mono _ _ _ (mem_acqEnsureDir fs d hd))
    conv_lhs => rw [download_and_extract_eq]
    rw [hstep1, acqFetch_of_mem _ _ hzip1]
    show ((acqExtract (download_and_extract_movielens_1m fs d).1 (d ++ [extractName])).1,
        [] ++ (acqExtract (download_and_extract_movielens_1m fs d).1 (d ++ [extractName])).2) =
      ((download_and_extract_movielens_1m fs d).1, [])
    rw [acqExtract_of_mem _ _ hext1]
    rfl

/-- Witness for C5 at a concrete filesystem that already holds the
archive and the extraction directory. -/
theorem C5_acquisition_idempotent_witness :
    ((["data"] ++ [zipName]) ∈ (AcqFS.mk [["data"], ["data", "ml-1m.zip"],
        ["data", "ml-1m"]]).paths) ∧
    AcqEffect.download ∉ (download_and_extract_movielens_1m
      (AcqFS.mk [["data"], ["data", "ml-1m.zip"], ["data", "ml-1m"]]) ["data"]).2 :=
  ⟨by decide,
    (C5_acquisition_idempotent
      (AcqFS.mk [["data"], ["data", "ml-1m.zip"], ["data", "ml-1m"]]) ["data"]).1 (by decide)⟩

/-- C6: the age table has exactly the keys 1, 18, 25, 35, 45, 50, 56 in
7 entries, the occupation table has exactly the keys 0 .. 20 in 21
entries, and every label in both tables is a nonempty string. -/
theorem C6_mapping_tables :
    age_mapping.map Prod.fst = [1, 18, 25, 35, 45, 50, 56] ∧
    age_mapping.length = 7 ∧
    occupation_mapping.map Prod.fst = List.range 21 ∧
    occupation_mapping.length = 21 ∧
    (∀ p, p ∈ age_mapping → p.2 ≠ "") ∧
    (∀ p, p ∈ occupation_mapping → p.2 ≠ "") := by
  refine ⟨by decide, by decide, by decide, by decide, by decide, by decide⟩

/-- Witness for C6 at one concrete table entry. -/
theorem C6_mapping_tables_witness :
    (((1 : Nat), "Under 18") ∈ age_mapping) ∧ ((1 : Nat), "Under 18").2 ≠ "" :=
  ⟨by decide, C6_mapping_tables.2.2.2.2.1 ((1 : Nat), "Under 18") (by decide)⟩

/-- C7: on a well-formed input (no blank lines), each loader returns a
table with exactly one row per input line and exactly its documented
column names in the documented order. -/
theorem C7_loader_schema (lines : List String) (hws : ∀ s ∈ lines, s ≠ "") :
    (load_movielens_ratings lines).cols = ["user_id", "movie_id", "rating", "timestamp"] ∧
    (load_movielens_ratings lines).rows.length = lines.length ∧
    (load_movielens_users lines).cols = ["user_id", "gender", "age", "occupation", "zip_code"] ∧
    (load_movielens_users lines).rows.length = lines.length ∧
    (load_movielens_movies lines).cols = ["movie_id", "title", "genres"] ∧
    (load_movielens_movies lines).rows.length = lines.length := by
  refine ⟨rfl, ?_, rfl, ?_, rfl, ?_⟩ <;>
    · simp [load_movielens_ratings, load_movielens_users, load_movielens_movies, readCsv]
      exact hws

/-- Witness for C7 on a two-line ratings fixture. -/
theorem C7_loader_schema_witness :
    (∀ s ∈ ["1::1193::5::978300760", "1::661::3::978302109"], s ≠ "") ∧
    (load_movielens_ratings ["1::1193::5::978300760", "1::661::3::978302109"]).cols =
      ["user_id", "movie_id", "rating", "timestamp"] ∧
    (load_movielens_ratings ["1::1193::5::978300760", "1::661::3::978302109"]).rows.length =
      (["1::1193::5::978300760", "1::661::3::978302109"] : List String).length :=
  ⟨by decide,
    (C7_loader_schema ["1::1193::5::978300760", "1::661::3::978302109"] (by decide)).1,
    (C7_loader_schema ["1::1193::5::978300760", "1::661::3::978302109"] (by decide)).2.1⟩

/-- C8: when the dataframe has no user_id column the call surfaces the
KeyError unchanged and writes no file (the file log is untouched; only
the directory creation that precedes the column access has happened). -/
theorem C8_missing_user_id_column [DecidableEq β] [Inhabited β] (df : DataFrame β)
    (fs : SplitFS β) (d : Path) (seed : Nat)
    (hcol : getColumn df userIdKey = none) :
    (create_user_splits df fs d seed).2 = some PyError.keyError ∧
    (create_user_splits df fs d seed).1.files = fs.files := by
  have hspl := splitUserIds_keyError df seed hcol
  rw [create_user_splits_eq_err df fs d seed PyError.keyError hspl]
  exact ⟨rfl, ensureDir_files fs d⟩

/-- Witness for C8 on a dataframe holding only a movie_id column. -/
theorem C8_missing_user_id_column_witness :
    getColumn ([("movie_id", [(1 : Int), 2])] : DataFrame Int) userIdKey = none ∧
    (create_user_splits ([("movie_id", [(1 : Int), 2])] : DataFrame Int)
      (⟨[], []⟩ : SplitFS Int) ["data", "splits"] 7).2 = some PyError.keyError :=
  ⟨by decide,
    (C8_missing_user_id_column ([("movie_id", [(1 : Int), 2])] : DataFrame Int)
      (⟨[], []⟩ : SplitFS Int) ["data", "splits"] 7 (by decide)).1⟩

/-- C9: the outcome of create_user_splits depends on the dataframe only
through its user_id column: two dataframes whose user_id columns agree
give identical results on any filesystem, directory and seed. -/
theorem C9_output_depends_only_on_user_id [DecidableEq β] [Inhabited β]
    (df1 df2 : DataFrame β) (fs : SplitFS β) (d : Path) (seed : Nat)
    (h : getColumn df1 userIdKey = getColumn df2 userIdKey) :
    create_user_splits df1 fs d seed = create_user_splits df2 fs d seed := by
  have hspl : splitUserIds df1 seed = splitUserIds df2 seed := by
    unfold splitUserIds
    rw [h]
  unfold create_user_splits
  rw [hspl]

/-- Witness for C9: extra columns around the same user_id column do not
change the output. -/
theorem C9_output_depends_only_on_user_id_witness :
    getColumn ([(userIdKey, [(1 : Int), 2, 3])] : DataFrame Int) userIdKey =
      getColumn ([("age", [(9 : Int), 9, 9]), (userIdKey, [(1 : Int), 2, 3]),
        ("zip", [(4 : Int), 5, 6])] : DataFrame Int) userIdKey ∧
    create_user_splits ([(userIdKey, [(1 : Int), 2, 3])] : DataFrame Int)
        (⟨[], []⟩ : SplitFS Int) ["s"] 42 =
      create_user_splits ([("age", [(9 : Int), 9, 9]), (userIdKey, [(1 : Int), 2, 3]),
        ("zip", [(4 : Int), 5, 6])] : DataFrame Int) (⟨[], []⟩ : SplitFS Int) ["s"] 42 :=
  ⟨by decide,
    C9_output_depends_only_on_user_id ([(userIdKey, [(1 : Int), 2, 3])] : DataFrame Int)
      ([("age", [(9 : Int), 9, 9]), (userIdKey, [(1 : Int), 2, 3]),
        ("zip", [(4 : Int), 5, 6])] : DataFrame Int)
      (⟨[], []⟩ : SplitFS Int) ["s"] 42 (by decide)⟩

/-- C10: on a fresh target path the call creates the directory and all
its ancestors before writing, and the call succeeds: no error, and all
three files are present. -/
theorem C10_creates_target_directory [DecidableEq β] [Inhabited β]
    (df : DataFrame β) (fs : SplitFS β) (d : Path) (seed : Nat) (col : List β)
    (hcol : getColumn df userIdKey = some col) (h3 : 3 ≤ (pdUnique col).length)
    (hfresh : pathExists fs d = false) (hne : d ≠ []) :
    (create_user_splits df fs d seed).2 = none ∧
    (∀ p ∈ ancestors d, p ∈ (create_user_splits df fs d seed).1.dirs) ∧
    d ∈ (create_user_splits df fs d seed).1.dirs ∧
    readFile (create_user_splits df fs d seed).1 (d ++ [trainName]) ≠ none ∧
    readFile (create_user_splits df fs d seed).1 (d ++ [valName]) ≠ none ∧
    readFile (create_user_splits df fs d seed).1 (d ++ [testName]) ≠ none := by
  have hd : dirOk fs d := Or.inr ⟨hfresh, hne⟩
  obtain ⟨tr, v, te, hspl⟩ := splitUserIds_ok_of_three_le df col seed hcol h3
  rw [create_user_splits_eq_ok df fs d seed tr v te hspl hd]
  have hdirs : (ensureDir fs d).dirs = ancestors d ++ fs.dirs :=
    ensureDir_dirs_of_fresh fs d hfresh
  refine ⟨rfl, ?_, ?_, ?_, ?_, ?_⟩
  · intro p hp
    show p ∈ (ensureDir fs d).dirs
    rw [hdirs]
    exact List.mem_append_left _ hp
  · show d ∈ (ensureDir fs d).dirs
    rw [hdirs]
    exact List.mem_append_left _ (mem_ancestors_self d hne)
  · rw [readFile_cons_ne _ _ _ _ _ (path_snoc_ne d testName trainName (by decide)),
      readFile_cons_ne _ _ _ _ _ (path_snoc_ne d valName trainName (by decide)),
      readFile_cons_self]
    simp
  · rw [readFile_cons_ne _ _ _ _ _ (path_snoc_ne d testName valName (by decide)),
      readFile_cons_self]
    simp
  · rw [readFile_cons_self]
    simp

/-- Witness for C10 on a fresh two-component target path. -/
theorem C10_creates_target_directory_witness :
    getColumn ([(userIdKey, [(1 : Int), 2, 3])] : DataFrame Int) userIdKey = some [1, 2, 3] ∧
    3 ≤ (pdUnique ([(1 : Int), 2, 3] : List Int)).length ∧
    pathExists (⟨[], []⟩ : SplitFS Int) ["data", "splits"] = false ∧
    (create_user_splits ([(userIdKey, [(1 : Int), 2, 3])] : DataFrame Int)
      (⟨[], []⟩ : SplitFS Int) ["data", "splits"] 42).2 = none ∧
    ["data", "splits"] ∈ (create_user_splits ([(userIdKey, [(1 : Int), 2, 3])] : DataFrame Int)
      (⟨[], []⟩ : SplitFS Int) ["data", "splits"] 42).1.dirs :=
  ⟨by decide, by decide, by decide,
    (C10_creates_target_directory ([(userIdKey, [(1 : Int), 2, 3])] : DataFrame Int)
      (⟨[], []⟩ : SplitFS Int) ["data", "splits"] 42 [1, 2, 3]
      (by decide) (by decide) (by decide) (by decide)).1,
    (C10_creates_target_directory ([(userIdKey, [(1 : Int), 2, 3])] : DataFrame Int)
      (⟨[], []⟩ : SplitFS Int) ["data", "splits"] 42 [1, 2, 3]
      (by decide) (by decide) (by decide) (by decide)).2.2.1⟩

end MovieLens

namespace MovieLens

/-- Reading the three split files back from the filesystem produced by a
successful create_user_splits. -/
theorem readFile_three [DecidableEq β] (ds : List Path) (d : Path)
    (tr v te : List β) (rest : List (Path × List β)) :
    readFile ⟨ds, (d ++ [testName], te) :: (d ++ [valName], v) ::
        (d ++ [trainName], tr) :: rest⟩ (d ++ [trainName]) = some tr ∧
    readFile ⟨ds, (d ++ [testName], te) :: (d ++ [valName], v) ::
        (d ++ [trainName], tr) :: rest⟩ (d ++ [valName]) = some v ∧
    readFile ⟨ds, (d ++ [testName], te) :: (d ++ [valName], v) ::
        (d ++ [trainName], tr) :: rest⟩ (d ++ [testName]) = some te := by
  refine ⟨?_, ?_, ?_⟩
  · rw [readFile_cons_ne _ _ _ _ _ (path_snoc_ne d testName trainName (by decide)),
      readFile_cons_ne _ _ _ _ _ (path_snoc_ne d valName trainName (by decide)),
      readFile_cons_self]
  · rw [readFile_cons_ne _ _ _ _ _ (path_snoc_ne d testName valName (by decide)),
      readFile_cons_self]
  · rw [readFile_cons_self]

/-- C1 as stated is refuted by a dataframe whose user_id column has a
single value: the call raises ValueError (scikit-learn refuses an empty
train side) and writes no file at all. -/
theorem C1_counterexample :
    (create_user_splits ([(userIdKey, [(5 : Int)])] : DataFrame Int)
      (⟨[], []⟩ : SplitFS Int) ["data", "splits"] 42).2 = some PyError.valueError ∧
    readFile (create_user_splits ([(userIdKey, [(5 : Int)])] : DataFrame Int)
      (⟨[], []⟩ : SplitFS Int) ["data", "splits"] 42).1
      (["data", "splits"] ++ [trainName]) = none := by
  decide

/-- C1, amended: on every dataframe whose user_id column has at least 3
distinct values and every writable target directory, the call succeeds
and the three written files are pairwise disjoint duplicate-free id
lists whose union is exactly the set of values of the user_id column. -/
theorem C1_user_splits_partition [DecidableEq β] [Inhabited β]
    (df : DataFrame β) (fs : SplitFS β) (d : Path) (seed : Nat) (col : List β)
    (hcol : getColumn df userIdKey = some col)
    (h3 : 3 ≤ (pdUnique col).length) (hd : dirOk fs d) :
    ∃ tr v te : List β,
      (create_user_splits df fs d seed).2 = none ∧
      readFile (create_user_splits df fs d seed).1 (d ++ [trainName]) = some tr ∧
      readFile (create_user_splits df fs d seed).1 (d ++ [valName]) = some v ∧
      readFile (create_user_splits df fs d seed).1 (d ++ [testName]) = some te ∧
      List.Disjoint tr v ∧ List.Disjoint tr te ∧ List.Disjoint v te ∧
      tr.Nodup ∧ v.Nodup ∧ te.Nodup ∧
      (∀ x : β, (x ∈ tr ∨ x ∈ v ∨ x ∈ te) ↔ x ∈ col) := by
  obtain ⟨tr, v, te, hspl⟩ := splitUserIds_ok_of_three_le df col seed hcol h3
  obtain ⟨hperm, hlens⟩ := splitUserIds_ok_spec hcol hspl
  have heq := create_user_splits_eq_ok df fs d seed tr v te hspl hd
  have hfiles := readFile_three (ensureDir fs d).dirs d tr v te (ensureDir fs d).files
  have hnod : (tr ++ v ++ te).Nodup := hperm.nodup_iff.mpr (pdUnique_nodup col)
  obtain ⟨h12, hte, hd3⟩ := List.nodup_append.mp hnod
  obtain ⟨htr, hv, hd1⟩ := List.nodup_append.mp h12
  obtain ⟨hd2a, hd2b⟩ := List.disjoint_append_left.mp hd3
  refine ⟨tr, v, te, ?_, ?_, ?_, ?_, hd1, hd2a, hd2b, htr, hv, hte, ?_⟩
  · rw [heq]
  · rw [heq]
    exact hfiles.1
  · rw [heq]
    exact hfiles.2.1
  · rw [heq]
    exact hfiles.2.2
  · intro x
    rw [← mem_pdUnique col x, ← hperm.mem_iff]
    simp [List.mem_append, or_assoc]

/-- Witness for the amended C1 on a column with a duplicated id. -/
theorem C1_user_splits_partition_witness :
    getColumn ([(userIdKey, [(1 : Int), 2, 2, 3])] : DataFrame Int) userIdKey =
      some [1, 2, 2, 3] ∧
    3 ≤ (pdUnique ([(1 : Int), 2, 2, 3] : List Int)).length ∧
    dirOk (⟨[], []⟩ : SplitFS Int) ["data", "splits"] ∧
    (∃ tr v te : List Int,
      (create_user_splits ([(userIdKey, [(1 : Int), 2, 2, 3])] : DataFrame Int)
        (⟨[], []⟩ : SplitFS Int) ["data", "splits"] 42).2 = none ∧
      readFile (create_user_splits ([(userIdKey, [(1 : Int), 2, 2, 3])] : DataFrame Int)
        (⟨[], []⟩ : SplitFS Int) ["data", "splits"] 42).1
        (["data", "splits"] ++ [trainName]) = some tr ∧
      readFile (create_user_splits ([(userIdKey, [(1 : Int), 2, 2, 3])] : DataFrame Int)
        (⟨[], []⟩ : SplitFS Int) ["data", "splits"] 42).1
        (["data", "splits"] ++ [valName]) = some v ∧
      readFile (create_user_splits ([(userIdKey, [(1 : Int), 2, 2, 3])] : DataFrame Int)
        (⟨[], []⟩ : SplitFS Int) ["data", "splits"] 42).1
        (["data", "splits"] ++ [testName]) = some te ∧
      List.Disjoint tr v ∧ List.Disjoint tr te ∧ List.Disjoint v te ∧
      tr.Nodup ∧ v.Nodup ∧ te.Nodup ∧
      (∀ x : Int, (x ∈ tr ∨ x ∈ v ∨ x ∈ te) ↔ x ∈ ([(1 : Int), 2, 2, 3] : List Int))) :=
  ⟨rfl, by decide, Or.inr ⟨by decide, by decide⟩,
    C1_user_splits_partition ([(userIdKey, [(1 : Int), 2, 2, 3])] : DataFrame Int)
      (⟨[], []⟩ : SplitFS Int) ["data", "splits"] 42 [1, 2, 2, 3]
      rfl (by decide) (Or.inr ⟨by decide, by decide⟩)⟩

end MovieLens

namespace MovieLens

set_option maxRecDepth 100000 in
/-- C2: a 100-id input always splits 60/20/20, and the concrete scenario
with distinct ids 1 .. 10 and seed 42 gives sizes 6/2/2, every written
id drawn from 1 .. 10 and no id repeated across the three files. -/
theorem C2_split_proportions :
    (∀ (df : DataFrame Int) (seed : Nat) (col : List Int),
        getColumn df userIdKey = some col → (pdUnique col).length = 100 →
        ∃ tr v te : List Int, splitUserIds df seed = .ok (tr, v, te) ∧
          tr.length = 60 ∧ v.length = 20 ∧ te.length = 20) ∧
    (∃ tr v te : List Int,
        splitUserIds ([(userIdKey, [(1 : Int), 2, 3, 4, 5, 6, 7, 8, 9, 10])] : DataFrame Int)
            42 = .ok (tr, v, te) ∧
        tr.length = 6 ∧ v.length = 2 ∧ te.length = 2 ∧
        (∀ x, x ∈ tr ++ v ++ te → x ∈ ([1, 2, 3, 4, 5, 6, 7, 8, 9, 10] : List Int)) ∧
        (tr ++ v ++ te).Nodup) := by
  constructor
  · intro df seed col hcol hlen
    obtain ⟨tr, v, te, hspl⟩ := splitUserIds_ok_of_three_le df col seed hcol (by omega)
    obtain ⟨hperm, hltr, hlv, hlte⟩ := splitUserIds_ok_spec hcol hspl
    refine ⟨tr, v, te, hspl, ?_, ?_, ?_⟩
    · rw [hltr, hlen]
      decide
    · rw [hlv, hlen]
      decide
    · rw [hlte, hlen]
      decide
  · refine ⟨[8, 3, 10, 5, 4, 7], [9, 6], [2, 1], rfl, by decide, by decide, by decide,
      by decide, by decide⟩

set_option maxRecDepth 100000 in
/-- Witness for the universally quantified half of C2, at the column
holding the distinct integers 0 .. 99. -/
theorem C2_split_proportions_witness :
    getColumn ([(userIdKey, (List.range 100).map (fun n => (n : Int)))] : DataFrame Int)
      userIdKey = some ((List.range 100).map (fun n => (n : Int))) ∧
    (pdUnique ((List.range 100).map (fun n => (n : Int)))).length = 100 ∧
    (∃ tr v te : List Int,
      splitUserIds ([(userIdKey, (List.range 100).map (fun n => (n : Int)))] : DataFrame Int)
          7 = .ok (tr, v, te) ∧
      tr.length = 60 ∧ v.length = 20 ∧ te.length = 20) :=
  ⟨rfl, by decide,
    C2_split_proportions.1
      ([(userIdKey, (List.range 100).map (fun n => (n : Int)))] : DataFrame Int) 7
      ((List.range 100).map (fun n => (n : Int))) rfl (by decide)⟩

set_option maxRecDepth 100000 in
/-- C3 as stated is refuted: two dataframes carrying the same SET of
user ids, 1, 2, 3, in different row orders, with the same seed 42,
produce train files with different contents ([3] versus [1]). -/
theorem C3_counterexample :
    (∀ x ∈ ([1, 2, 3] : List Int), x ∈ ([3, 2, 1] : List Int)) ∧
    (∀ x ∈ ([3, 2, 1] : List Int), x ∈ ([1, 2, 3] : List Int)) ∧
    readFile (create_user_splits ([(userIdKey, [(1 : Int), 2, 3])] : DataFrame Int)
      (⟨[], []⟩ : SplitFS Int) ["data", "splits"] 42).1
      (["data", "splits"] ++ [trainName]) = some [3] ∧
    readFile (create_user_splits ([(userIdKey, [(3 : Int), 2, 1])] : DataFrame Int)
      (⟨[], []⟩ : SplitFS Int) ["data", "splits"] 42).1
      (["data", "splits"] ++ [trainName]) = some [1] := by
  refine ⟨by decide, by decide, by decide, by decide⟩

/-- C3, amended: the split is deterministic in the seed and the sequence
of distinct user ids.  Two invocations on dataframes whose user_id
columns have the same distinct-value sequence, with the same seed,
compute the same partition and write identical contents into the three
files, whatever the filesystems and target directories. -/
theorem C3_seeded_determinism [DecidableEq β] [Inhabited β]
    (df1 df2 : DataFrame β) (fs1 fs2 : SplitFS β) (d1 d2 : Path) (seed : Nat)
    (col1 col2 : List β)
    (hcol1 : getColumn df1 userIdKey = some col1)
    (hcol2 : getColumn df2 userIdKey = some col2)
    (hps : pdUnique col1 = pdUnique col2)
    (hd1 : dirOk fs1 d1) (hd2 : dirOk fs2 d2) :
    splitUserIds df1 seed = splitUserIds df2 seed ∧
    (∀ tr v te : List β, splitUserIds df1 seed = .ok (tr, v, te) →
      readFile (create_user_splits df1 fs1 d1 seed).1 (d1 ++ [trainName]) = some tr ∧
      readFile (create_user_splits df2 fs2 d2 seed).1 (d2 ++ [trainName]) = some tr ∧
      readFile (create_user_splits df1 fs1 d1 seed).1 (d1 ++ [valName]) = some v ∧
      readFile (create_user_splits df2 fs2 d2 seed).1 (d2 ++ [valName]) = some v ∧
      readFile (create_user_splits df1 fs1 d1 seed).1 (d1 ++ [testName]) = some te ∧
      readFile (create_user_splits df2 fs2 d2 seed).1 (d2 ++ [testName]) = some te) := by
  have heq : splitUserIds df1 seed = splitUserIds df2 seed := by
    rw [splitUserIds_eq df1 col1 seed hcol1, splitUserIds_eq df2 col2 seed hcol2, hps]
  refine ⟨heq, ?_⟩
  intro tr v te hspl1
  have hspl2 : splitUserIds df2 seed = .ok (tr, v, te) := heq.symm.trans hspl1
  rw [create_user_splits_eq_ok df1 fs1 d1 seed tr v te hspl1 hd1,
    create_user_splits_eq_ok df2 fs2 d2 seed tr v te hspl2 hd2]
  have h1 := readFile_three (ensureDir fs1 d1).dirs d1 tr v te (ensureDir fs1 d1).files
  have h2 := readFile_three (ensureDir fs2 d2).dirs d2 tr v te (ensureDir fs2 d2).files
  exact ⟨h1.1, h2.1, h1.2.1, h2.2.1, h1.2.2, h2.2.2⟩

/-- Witness for the amended C3: user_id columns that differ as raw
sequences ([1, 1, 2, 3] against [1, 2, 3]) but deduplicate to the same
distinct-value sequence, inside different dataframes, on different
filesystems and directories, with the same seed. -/
theorem C3_seeded_determinism_witness :
    getColumn ([(userIdKey, [(1 : Int), 1, 2, 3])] : DataFrame Int) userIdKey =
      some [1, 1, 2, 3] ∧
    getColumn ([("g", [(0 : Int), 0, 0]), (userIdKey, [(1 : Int), 2, 3])] : DataFrame Int)
      userIdKey = some [1, 2, 3] ∧
    ([(1 : Int), 1, 2, 3] : List Int) ≠ ([(1 : Int), 2, 3] : List Int) ∧
    pdUnique ([(1 : Int), 1, 2, 3] : List Int) = pdUnique ([(1 : Int), 2, 3] : List Int) ∧
    splitUserIds ([(userIdKey, [(1 : Int), 1, 2, 3])] : DataFrame Int) 42 =
      splitUserIds ([("g", [(0 : Int), 0, 0]), (userIdKey, [(1 : Int), 2, 3])] : DataFrame Int)
        42 :=
  ⟨by decide, by decide, by decide, by decide,
    (C3_seeded_determinism ([(userIdKey, [(1 : Int), 1, 2, 3])] : DataFrame Int)
      ([("g", [(0 : Int), 0, 0]), (userIdKey, [(1 : Int), 2, 3])] : DataFrame Int)
      (⟨[], []⟩ : SplitFS Int) (⟨[["b"]], []⟩ : SplitFS Int) ["a"] ["b"] 42
      [1, 1, 2, 3] [1, 2, 3]
      (by decide) (by decide) (by decide)
      (Or.inr ⟨by decide, by decide⟩) (Or.inl (by decide))).1⟩

/-- C4 as stated is refuted: an input whose user_id column has a single
distinct value (fewer than 5) does not succeed; the call raises
ValueError. -/
theorem C4_counterexample :
    (pdUnique ([(7 : Int), 7] : List Int)).length = 1 ∧
    (pdUnique ([(7 : Int), 7] : List Int)).length < 5 ∧
    (create_user_splits ([(userIdKey, [(7 : Int), 7])] : DataFrame Int)
      (⟨[], []⟩ : SplitFS Int) ["d"] 42).2 = some PyError.valueError := by
  decide

/-- C4, amended: among inputs with fewer than 5 distinct user ids, those
with at least 3 split successfully and their validation and test
subsets are nonempty (never empty); those with fewer than 3 raise
ValueError from the underlying splitter. -/
theorem C4_small_input_behavior [DecidableEq β] [Inhabited β] (df : DataFrame β)
    (seed : Nat) (col : List β) (hcol : getColumn df userIdKey = some col)
    (hlt : (pdUnique col).length < 5) :
    (3 ≤ (pdUnique col).length →
      ∃ tr v te : List β, splitUserIds df seed = .ok (tr, v, te) ∧ v ≠ [] ∧ te ≠ []) ∧
    ((pdUnique col).length < 3 → splitUserIds df seed = .error PyError.valueError) := by
  constructor
  · intro h3
    obtain ⟨tr, v, te, hspl⟩ := splitUserIds_ok_of_three_le df col seed hcol h3
    obtain ⟨hperm, hltr, hlv, hlte⟩ := splitUserIds_ok_spec hcol hspl
    refine ⟨tr, v, te, hspl, ?_, ?_⟩
    · have hpos : 0 < v.length := by
        rw [hlv]
        unfold ceilTimes04 ceilTimes05
        omega
      exact List.length_pos.mp hpos
    · have hpos : 0 < te.length := by
        rw [hlte]
        unfold ceilTimes04 ceilTimes05
        omega
      exact List.length_pos.mp hpos
  · intro hlt3
    exact splitUserIds_err_of_lt_three df col seed hcol hlt3

/-- Witness for the amended C4 on four distinct ids. -/
theorem C4_small_input_behavior_witness :
    getColumn ([(userIdKey, [(1 : Int), 2, 3, 4])] : DataFrame Int) userIdKey =
      some [1, 2, 3, 4] ∧
    (pdUnique ([(1 : Int), 2, 3, 4] : List Int)).length < 5 ∧
    3 ≤ (pdUnique ([(1 : Int), 2, 3, 4] : List Int)).length ∧
    (∃ tr v te : List Int,
      splitUserIds ([(userIdKey, [(1 : Int), 2, 3, 4])] : DataFrame Int) 42 =
        .ok (tr, v, te) ∧ v ≠ [] ∧ te ≠ []) :=
  ⟨rfl, by decide, by decide,
    (C4_small_input_behavior ([(userIdKey, [(1 : Int), 2, 3, 4])] : DataFrame Int) 42
      [1, 2, 3, 4] rfl (by decide)).1 (by decide)⟩

end MovieLens
